import Mathlib

/-!
Verification of the bench-press percentile pipeline (`bench_percentile.py`).

The embedding models:
* the raw dataset rows restricted to the columns `load_data` reads
  (`usecols=required_cols`) and the cleaning pipeline (numeric coercion of
  `Best3BenchKg`, `Year` derivation from `Date`, `dropna`);
* `preprocess` (sex filter, the six optional equality filters with the
  `"All"` sentinel, the empty short-circuit, `groupby('Name').max()` and
  `sort_values('Best3BenchKg')`);
* the percentile computation in `main`
  (`rank = (best <= input).sum()`, `total = len`, `percentile`);
* the fetch/extract/load control flow of `load_data`, with each fallible
  I/O step surfaced as an `Except` error (Python exceptions propagate out
  of `load_data`, which installs no handler).
-/

namespace BenchPercentile

/-- One raw dataset row, restricted to the columns `load_data` reads.
Missing (NaN) cells of the optional columns are `none`; `Best3BenchKg`
and `Date` are kept as raw strings to model `pd.to_numeric(errors='coerce')`
and `pd.to_datetime(errors='coerce')`. -/
structure RawRow where
  Name : String
  Sex : String
  Event : Option String
  Equipment : String
  Country : Option String
  Date : Option String
  WeightClassKg : Option String
  Best3BenchKg : Option String
  Tested : Option String
deriving DecidableEq, Repr

/-- One row of the cleaned dataset produced by `load_data` after `dropna`
and `astype(int)` on `Year`: all required fields present, `Best3BenchKg`
numeric, `Year` an integer. -/
structure CleanRow where
  Name : String
  Sex : String
  Event : String
  Equipment : String
  Country : String
  Date : String
  WeightClassKg : String
  Best3BenchKg : ℚ
  Tested : String
  Year : ℤ
deriving DecidableEq, Repr

/-- Split a character list at every occurrence of `sep`. -/
def splitOnChar (sep : Char) : List Char → List (List Char)
  | [] => [[]]
  | c :: rest =>
      match splitOnChar sep rest with
      | [] => [[c]]
      | cur :: groups =>
          if c == sep then [] :: cur :: groups else (c :: cur) :: groups

/-- Parse a nonempty all-digit character list as a natural number. -/
def digitsToNat (cs : List Char) : Option Nat :=
  if cs ≠ [] ∧ cs.all Char.isDigit then
    some (cs.foldl (fun n c => n * 10 + (c.toNat - 48)) 0)
  else none

/-- Model of `pd.to_numeric(x, errors='coerce')` on a cell: an optional
sign, an integer part, and an optional fractional part parse to a rational;
anything else (for instance `"DQ"`) coerces to missing. -/
def toNumeric (s : String) : Option ℚ :=
  let cs := s.data
  let signed : Bool × List Char :=
    match cs with
    | '-' :: rest => (true, rest)
    | _ => (false, cs)
  match splitOnChar '.' signed.2 with
  | [w] => (digitsToNat w).map fun n =>
      if signed.1 then -(n : ℚ) else (n : ℚ)
  | [w, f] =>
      match digitsToNat w, digitsToNat f with
      | some wn, some fn =>
          let q : ℚ := (wn : ℚ) + (fn : ℚ) / ((10 : ℚ) ^ f.length)
          some (if signed.1 then -q else q)
      | _, _ => none
  | _ => none

/-- Model of `pd.to_datetime(x, errors='coerce').dt.year` on a cell: a
`YYYY-MM-DD` date yields its year as an integer, an unparsable date
coerces to missing (`NaT`, hence a missing `Year`). -/
def dateYear (s : String) : Option ℤ :=
  match splitOnChar '-' s.data with
  | [y, m, d] =>
      match digitsToNat y, digitsToNat m, digitsToNat d with
      | some yn, some mn, some dn =>
          if 1 ≤ mn ∧ mn ≤ 12 ∧ 1 ≤ dn ∧ dn ≤ 31 then some (yn : ℤ) else none
      | _, _, _ => none
  | _ => none

/-- Cleaning of one row, following `load_data`: coerce `Best3BenchKg` to
numeric, derive `Year` from `Date`, then `dropna` on
`['Best3BenchKg', 'Year', 'Country', 'WeightClassKg', 'Event', 'Tested']`;
a row missing any of these is dropped (`none`). -/
def cleanRow (r : RawRow) : Option CleanRow :=
  match r.Best3BenchKg.bind toNumeric, r.Date, r.Date.bind dateYear,
        r.Country, r.WeightClassKg, r.Event, r.Tested with
  | some best, some date, some year, some country, some wc, some ev, some tested =>
      some ⟨r.Name, r.Sex, ev, r.Equipment, country, date, wc, best, tested, year⟩
  | _, _, _, _, _, _, _ => none

/-- The cleaned dataset: every raw row that survives coercion and `dropna`. -/
def clean (rows : List RawRow) : List CleanRow :=
  rows.filterMap cleanRow

/-- The `year` argument of `preprocess` is the selectbox value drawn from
`["All"] + sorted(df['Year'].unique(), reverse=True)`: either the string
sentinel `"All"` or an integer year. -/
inductive YearSel where
  | all : YearSel
  | year (y : ℤ) : YearSel
deriving DecidableEq, Repr

/-- One optional equality filter of `preprocess`:
`if crit != "All": df = df[df[col] == crit]`. -/
def applyStrFilter (cur : List CleanRow) (crit : String)
    (field : CleanRow → String) : List CleanRow :=
  if crit ≠ "All" then cur.filter (fun r => field r == crit) else cur

/-- The `Year` filter of `preprocess`: `if year != "All": df = df[df['Year'] == year]`. -/
def applyYearFilter (cur : List CleanRow) (year : YearSel) : List CleanRow :=
  match year with
  | .all => cur
  | .year y => cur.filter (fun r => r.Year == y)

/-- The filtering phase of `preprocess`: the always-active `Sex` equality
filter followed by the six optional filters, in source order. -/
def filterRows (df : List CleanRow) (sex event equipment weight_class : String)
    (year : YearSel) (country tested_status : String) : List CleanRow :=
  let d1 := df.filter (fun r => r.Sex == sex)
  let d2 := applyStrFilter d1 event CleanRow.Event
  let d3 := applyStrFilter d2 equipment CleanRow.Equipment
  let d4 := applyStrFilter d3 weight_class CleanRow.WeightClassKg
  let d5 := applyYearFilter d4 year
  let d6 := applyStrFilter d5 country CleanRow.Country
  applyStrFilter d6 tested_status CleanRow.Tested

/-- Executable lexicographic comparison of character lists (code-point
order), used to model the sorted group keys of `groupby` (pandas defaults
to `sort=True`). -/
def charListLE : List Char → List Char → Bool
  | [], _ => true
  | _ :: _, [] => false
  | a :: as, b :: bs =>
      if a.toNat = b.toNat then charListLE as bs else Nat.ble a.toNat b.toNat

/-- Lexicographic order on names. -/
def nameLE (a b : String) : Prop := charListLE a.data b.data = true

instance : DecidableRel nameLE :=
  fun a b => inferInstanceAs (Decidable (charListLE a.data b.data = true))

theorem charListLE_total : ∀ as bs, charListLE as bs = true ∨ charListLE bs as = true
  | [], _ => Or.inl rfl
  | _ :: _, [] => Or.inr rfl
  | a :: as, b :: bs => by
      by_cases h : a.toNat = b.toNat
      · have ih := charListLE_total as bs
        rw [charListLE, charListLE, if_pos h, if_pos h.symm]
        exact ih
      · rw [charListLE, charListLE, if_neg h, if_neg (fun hh => h hh.symm)]
        simp only [Nat.ble_eq]
        omega

theorem charListLE_trans :
    ∀ as bs cs, charListLE as bs = true → charListLE bs cs = true →
      charListLE as cs = true
  | [], _, _, _, _ => rfl
  | _ :: _, [], _, h1, _ => by simp [charListLE] at h1
  | _ :: _, _ :: _, [], _, h2 => by simp [charListLE] at h2
  | a :: as, b :: bs, c :: cs, h1, h2 => by
      rw [charListLE] at h1 h2 ⊢
      by_cases hab : a.toNat = b.toNat
      · rw [if_pos hab] at h1
        by_cases hbc : b.toNat = c.toNat
        · rw [if_pos hbc] at h2
          rw [if_pos (hab.trans hbc)]
          exact charListLE_trans as bs cs h1 h2
        · rw [if_neg hbc] at h2
          rw [if_neg (fun h => hbc (hab.symm.trans h)), hab]
          exact h2
      · rw [if_neg hab] at h1
        by_cases hbc : b.toNat = c.toNat
        · rw [if_neg (fun h => hab (h.trans hbc.symm)), ← hbc]
          exact h1
        · rw [if_neg hbc] at h2
          simp only [Nat.ble_eq] at h1 h2
          by_cases hac : a.toNat = c.toNat
          · exact absurd (Nat.le_antisymm h1 (hac ▸ h2)) hab
          · rw [if_neg hac]
            simp only [Nat.ble_eq]
            omega

instance : IsTotal String nameLE :=
  ⟨fun a b => charListLE_total a.data b.data⟩

instance : IsTrans String nameLE :=
  ⟨fun a b c => charListLE_trans a.data b.data c.data⟩

/-- The distinct `Name` keys of a table, in sorted key order
(`groupby` defaults to `sort=True`). -/
def groupNames (rows : List CleanRow) : List String :=
  ((rows.map CleanRow.Name).dedup).insertionSort nameLE

/-- The maximum `Best3BenchKg` over the rows carrying a given `Name`
(`groupby('Name')['Best3BenchKg'].max()` for one group). -/
def bestOf (rows : List CleanRow) (n : String) : ℚ :=
  match ((rows.filter (fun r => r.Name == n)).map CleanRow.Best3BenchKg) with
  | [] => 0
  | v :: vs => vs.foldl max v

/-- `df_filtered.groupby('Name', as_index=False)['Best3BenchKg'].max()`:
one `(Name, best)` pair per distinct name. -/
def groupMaxByName (rows : List CleanRow) : List (String × ℚ) :=
  (groupNames rows).map (fun n => (n, bestOf rows n))

/-- Comparison of `(Name, best)` pairs by their value component, the sort
key of `sort_values(by='Best3BenchKg')`. -/
def valueLE (a b : String × ℚ) : Prop := a.2 ≤ b.2

instance : DecidableRel valueLE :=
  fun a b => inferInstanceAs (Decidable (a.2 ≤ b.2))

instance : IsTotal (String × ℚ) valueLE :=
  ⟨fun a b => le_total a.2 b.2⟩

instance : IsTrans (String × ℚ) valueLE :=
  ⟨fun _ _ _ h1 h2 => le_trans h1 h2⟩

/-- `df_processed.sort_values(by='Best3BenchKg')` (pandas' default sort
kind is unstable, so only the value ordering is specified). -/
def sortByValue (t : List (String × ℚ)) : List (String × ℚ) :=
  t.insertionSort valueLE

/-- The value `preprocess` returns: either the empty filtered slice of the
input table (which still has the input's columns) or the aggregated
two-column per-lifter table. The two branches of the source return tables
of different shapes, so the model keeps them as distinct constructors. -/
inductive PResult where
  | emptySlice (rows : List CleanRow) : PResult
  | perLifter (table : List (String × ℚ)) : PResult
deriving DecidableEq, Repr

/-- `preprocess(df, sex, event, equipment, weight_class, year, country,
tested_status)`: filter, short-circuit on empty, otherwise group by `Name`,
take the per-name maximum and sort ascending by value. -/
def preprocess (df : List CleanRow) (sex event equipment weight_class : String)
    (year : YearSel) (country tested_status : String) : PResult :=
  let df_filtered := filterRows df sex event equipment weight_class year country tested_status
  if df_filtered.isEmpty then
    .emptySlice df_filtered
  else
    .perLifter (sortByValue (groupMaxByName df_filtered))

/-- Column names of the cleaned dataset (the required columns plus the
derived `Year`); this is the shape of the empty slice `preprocess` returns. -/
def cleanCols : List String :=
  ["Name", "Sex", "Event", "Equipment", "Country", "Date",
   "WeightClassKg", "Best3BenchKg", "Tested", "Year"]

/-- Column names of the aggregated per-lifter table. -/
def aggCols : List String := ["Name", "Best3BenchKg"]

/-- The columns carried by a `preprocess` result. -/
def resultCols : PResult → List String
  | .emptySlice _ => cleanCols
  | .perLifter _ => aggCols

/-- The lifter names appearing in a `preprocess` result. -/
def namesOf : PResult → List String
  | .emptySlice rows => rows.map CleanRow.Name
  | .perLifter t => t.map Prod.fst

/-- The percentile computation of `main`:
`rank = (filtered_df['Best3BenchKg'] <= bench_input).sum()`,
`total_lifters = len(filtered_df)`,
`percentile = (rank / total_lifters) * 100 if total_lifters > 0 else 0`. -/
def percentileCalc (table : List (String × ℚ)) (v : ℚ) : ℕ × ℕ × ℚ :=
  let rank := table.countP (fun p => p.2 ≤ v)
  let total := table.length
  let pct : ℚ := if 0 < total then ((rank : ℚ) / (total : ℚ)) * 100 else 0
  (rank, total, pct)

/-- The `EVENT_DISPLAY_MAP` literal of `main`: internal dataset code to
human-facing display label. The event selectbox offers the codes and
renders them through this map, so the label-to-code direction is its
inverse. -/
def EVENT_DISPLAY_MAP : List (String × String) :=
  [("All", "All"), ("SBD", "Full Power"), ("B", "Bench Only"),
   ("BD", "Push-Pull"), ("SB", "Squat & Bench")]

/-- The label-to-internal-code direction of the event mapping: the code
whose display label is `label`. -/
def eventCodeOfLabel (label : String) : Option String :=
  (EVENT_DISPLAY_MAP.find? (fun p => p.2 == label)).map Prod.fst

/-- How `load_data` can fail: each constructor is the Python exception that
a step of the function raises — `load_data` installs no handler, so every
one propagates to the caller as a fatal condition. -/
inductive LoadErr where
  | network : LoadErr
  | diskWrite : LoadErr
  | badZip : LoadErr
  | noCsv : LoadErr
  | badCsv : LoadErr
deriving DecidableEq, Repr

/-- The environment `load_data` runs against. `response` is `none` when
`requests.get` raises a network error; otherwise `some archive`, where the
archive is `none` when the downloaded bytes are not a valid zip
(`zipfile.ZipFile` raises) and otherwise the list of entries, each a name
paired with `some rows` (parsed tabular content) or `none` (malformed, so
`pd.read_csv` raises). `diskOk` is whether `tmp.write` succeeds. -/
structure FetchEnv where
  response : Option (Option (List (String × Option (List RawRow))))
  diskOk : Bool
deriving DecidableEq, Repr

/-- The control flow of `load_data` with each fallible I/O step explicit:
download, write the archive to a temp file, open the zip, pick the first
entry whose name ends in `.csv` (`[...][0]`, an `IndexError` when there is
none), parse it, then clean. No step catches an error. -/
def load_data (env : FetchEnv) : Except LoadErr (List CleanRow) :=
  match env.response with
  | none => .error .network
  | some archive =>
      if env.diskOk = false then .error .diskWrite
      else
        match archive with
        | none => .error .badZip
        | some entries =>
            match entries.filter (fun e => e.1.endsWith ".csv") with
            | [] => .error .noCsv
            | entry :: _ =>
                match entry.2 with
                | none => .error .badCsv
                | some rows => .ok (clean rows)

/-- A store of live dataframes, for the frame-effect claim: the cached
cleaned dataset lives at some index; every pandas operation `preprocess`
performs (`df.copy()`, boolean-mask selection, `groupby(...).max()`,
`sort_values`, `reset_index(drop=True)`) returns a fresh frame rather than
writing an existing one. -/
structure Store where
  frames : List (List CleanRow)
deriving DecidableEq, Repr

/-- `preprocess` acting on the store: it reads the frame at `i` (the cached
cleaned dataset), starts from `df.copy()`, computes on fresh frames (here:
the copy and the filtered slice are appended to the store), and never
writes an existing frame. It returns the new store and the result. -/
def preprocessSt (s : Store) (i : ℕ) (sex event equipment weight_class : String)
    (year : YearSel) (country tested_status : String) : Store × PResult :=
  let df := s.frames.getD i []
  let dfCopy := df
  let df_filtered := filterRows dfCopy sex event equipment weight_class year country tested_status
  let s2 : Store := ⟨s.frames ++ [dfCopy, df_filtered]⟩
  (s2, preprocess dfCopy sex event equipment weight_class year country tested_status)

/-- A cleaned row with the given name and best bench value; the remaining
fields are fixed plausible dataset values. -/
def exampleRow (n : String) (b : ℚ) : CleanRow :=
  ⟨n, "M", "SBD", "Raw", "USA", "2019-05-04", "90", b, "Yes", 2019⟩

/-- The three surviving rows of the specification's worked example:
(A, 100), (A, 120), (B, 110). -/
def exampleRows : List CleanRow :=
  [exampleRow "A" 100, exampleRow "A" 120, exampleRow "B" 110]

/-- A raw row whose `Best3BenchKg` cell is the non-numeric string `"DQ"`. -/
def rawDQ : RawRow :=
  ⟨"X", "M", some "B", "Raw", some "USA", some "2019-05-04", some "90",
   some "DQ", some "Yes"⟩

/-! ### Helper lemmas -/

theorem foldl_max_mem (v : ℚ) : ∀ vs : List ℚ, vs.foldl max v ∈ v :: vs := by
  intro vs
  induction vs generalizing v with
  | nil => simp
  | cons w ws ih =>
      rw [List.foldl_cons]
      rcases List.mem_cons.mp (ih (max v w)) with h1 | h1
      · rw [h1]
        rcases max_choice v w with h2 | h2 <;> rw [h2] <;> simp
      · exact List.mem_cons.mpr (Or.inr (List.mem_cons.mpr (Or.inr h1)))

theorem init_le_foldl_max : ∀ (vs : List ℚ) (v : ℚ), v ≤ vs.foldl max v
  | [], v => le_refl v
  | w :: ws, v => le_trans (le_max_left v w) (init_le_foldl_max ws (max v w))

theorem le_foldl_max (a v : ℚ) : ∀ vs : List ℚ, a ∈ v :: vs → a ≤ vs.foldl max v := by
  intro vs
  induction vs generalizing v with
  | nil => intro h; simp at h; simp [h]
  | cons w ws ih =>
      intro h
      rw [List.foldl_cons]
      rcases List.mem_cons.mp h with rfl | h1
      · exact le_trans (le_max_left a w) (init_le_foldl_max ws (max a w))
      · rcases List.mem_cons.mp h1 with rfl | h2
        · exact le_trans (le_max_right v a) (init_le_foldl_max ws (max v a))
        · exact ih (max v w) (List.mem_cons.mpr (Or.inr h2))

theorem bestOf_mem {rows : List CleanRow} {n : String}
    (h : n ∈ rows.map CleanRow.Name) :
    bestOf rows n ∈ (rows.filter (fun r => r.Name == n)).map CleanRow.Best3BenchKg := by
  obtain ⟨r, hr, hname⟩ := List.mem_map.mp h
  have hrf : r ∈ rows.filter (fun r => r.Name == n) :=
    List.mem_filter.mpr ⟨hr, by simp [hname]⟩
  have hmem : r.Best3BenchKg ∈ (rows.filter (fun r => r.Name == n)).map CleanRow.Best3BenchKg :=
    List.mem_map.mpr ⟨r, hrf, rfl⟩
  unfold bestOf
  cases hl : (rows.filter (fun r => r.Name == n)).map CleanRow.Best3BenchKg with
  | nil => rw [hl] at hmem; simp at hmem
  | cons v vs => rw [← hl]; exact hl ▸ foldl_max_mem v vs

theorem le_bestOf {rows : List CleanRow} {r : CleanRow} (hr : r ∈ rows)
    {n : String} (hname : r.Name = n) :
    r.Best3BenchKg ≤ bestOf rows n := by
  have hrf : r ∈ rows.filter (fun r => r.Name == n) :=
    List.mem_filter.mpr ⟨hr, by simp [hname]⟩
  have hmem : r.Best3BenchKg ∈ (rows.filter (fun r => r.Name == n)).map CleanRow.Best3BenchKg :=
    List.mem_map.mpr ⟨r, hrf, rfl⟩
  unfold bestOf
  cases hl : (rows.filter (fun r => r.Name == n)).map CleanRow.Best3BenchKg with
  | nil => rw [hl] at hmem; simp at hmem
  | cons v vs => exact le_foldl_max _ v vs (hl ▸ hmem)

theorem mem_groupNames {rows : List CleanRow} {n : String} :
    n ∈ groupNames rows ↔ n ∈ rows.map CleanRow.Name := by
  simp [groupNames, List.mem_insertionSort, List.mem_dedup]

theorem groupNames_nodup (rows : List CleanRow) : (groupNames rows).Nodup :=
  ((List.perm_insertionSort nameLE _).nodup_iff).mpr (List.nodup_dedup _)

theorem groupMaxByName_map_fst (rows : List CleanRow) :
    (groupMaxByName rows).map Prod.fst = groupNames rows := by
  unfold groupMaxByName
  rw [List.map_map]
  rw [show (Prod.fst ∘ fun n : String => (n, bestOf rows n)) = fun n => n from rfl]
  exact List.map_id' _

theorem mem_groupMaxByName {rows : List CleanRow} {p : String × ℚ} :
    p ∈ groupMaxByName rows ↔ p.1 ∈ groupNames rows ∧ p.2 = bestOf rows p.1 := by
  constructor
  · intro h
    obtain ⟨n, hn, hp⟩ := List.mem_map.mp h
    cases hp
    exact ⟨hn, rfl⟩
  · rintro ⟨h1, h2⟩
    obtain ⟨a, b⟩ := p
    exact List.mem_map.mpr ⟨a, h1, by rw [show b = bestOf rows a from h2]⟩

theorem sortByValue_perm (t : List (String × ℚ)) : List.Perm (sortByValue t) t :=
  List.perm_insertionSort _ _

theorem sortByValue_sorted (t : List (String × ℚ)) :
    (sortByValue t).Pairwise valueLE :=
  List.sorted_insertionSort _ _

theorem applyStrFilter_subset (cur : List CleanRow) (crit : String)
    (field : CleanRow → String) : applyStrFilter cur crit field ⊆ cur := by
  unfold applyStrFilter
  split
  · exact List.filter_subset' cur
  · exact fun a h => h

theorem applyYearFilter_subset (cur : List CleanRow) (year : YearSel) :
    applyYearFilter cur year ⊆ cur := by
  unfold applyYearFilter
  split
  · exact fun a h => h
  · exact List.filter_subset' cur

theorem filterRows_subset (df : List CleanRow) (sex event equipment weight_class : String)
    (year : YearSel) (country tested_status : String) :
    filterRows df sex event equipment weight_class year country tested_status ⊆
      df.filter (fun r => r.Sex == sex) := by
  intro r hr
  simp only [filterRows] at hr
  have h1 := applyStrFilter_subset _ _ _ hr
  have h2 := applyStrFilter_subset _ _ _ h1
  have h3 := applyYearFilter_subset _ _ h2
  have h4 := applyStrFilter_subset _ _ _ h3
  have h5 := applyStrFilter_subset _ _ _ h4
  exact applyStrFilter_subset _ _ _ h5

theorem filterRows_all_sentinels (df : List CleanRow) (sex : String) :
    filterRows df sex "All" "All" "All" YearSel.all "All" "All" =
      df.filter (fun r => r.Sex == sex) := by
  simp [filterRows, applyStrFilter, applyYearFilter]

theorem preprocess_eq_emptySlice {df : List CleanRow}
    {sex event equipment weight_class : String} {year : YearSel}
    {country tested_status : String}
    (h : filterRows df sex event equipment weight_class year country tested_status = []) :
    preprocess df sex event equipment weight_class year country tested_status =
      .emptySlice (filterRows df sex event equipment weight_class year country tested_status) := by
  simp [preprocess, h]

theorem preprocess_eq_perLifter {df : List CleanRow}
    {sex event equipment weight_class : String} {year : YearSel}
    {country tested_status : String}
    (h : filterRows df sex event equipment weight_class year country tested_status ≠ []) :
    preprocess df sex event equipment weight_class year country tested_status =
      .perLifter (sortByValue (groupMaxByName
        (filterRows df sex event equipment weight_class year country tested_status))) := by
  simp [preprocess, List.isEmpty_iff, h]

theorem namesOf_preprocess (df : List CleanRow) (sex event equipment weight_class : String)
    (year : YearSel) (country tested_status : String) (n : String) :
    n ∈ namesOf (preprocess df sex event equipment weight_class year country tested_status) ↔
      n ∈ (filterRows df sex event equipment weight_class year country tested_status).map
            CleanRow.Name := by
  rcases eq_or_ne (filterRows df sex event equipment weight_class year country tested_status) []
    with h | h
  · rw [preprocess_eq_emptySlice h]
    exact Iff.rfl
  · rw [preprocess_eq_perLifter h]
    show n ∈ (sortByValue (groupMaxByName _)).map Prod.fst ↔ _
    rw [((sortByValue_perm _).map Prod.fst).mem_iff, groupMaxByName_map_fst]
    exact mem_groupNames

theorem cleanRow_eq_some {r : RawRow} {c : CleanRow} (h : cleanRow r = some c) :
    r.Best3BenchKg.bind toNumeric = some c.Best3BenchKg ∧
    r.Date.bind dateYear = some c.Year ∧
    r.Country = some c.Country ∧
    r.WeightClassKg = some c.WeightClassKg := by
  unfold cleanRow at h
  split at h
  · rename_i best date year country wc ev tested hb hd hy hc hw he ht
    injection h with h
    subst h
    exact ⟨hb, hy, hc, hw⟩
  · exact absurd h (by simp)

/-! ### Claim theorems -/

/-- C1: for every per-lifter result table and every input value `v`, the
percentile computation returns `rank` = the number of lifters whose best
value is at most `v` (inclusive threshold), `total` = the number of lifters
in the table, and `percentile = 100 * rank / total` when `total > 0` and
`0` when `total = 0`. -/
theorem C1_percentile_formula (table : List (String × ℚ)) (v : ℚ) :
    (percentileCalc table v).1 = (table.filter (fun p => p.2 ≤ v)).length ∧
    (percentileCalc table v).2.1 = table.length ∧
    (0 < table.length →
      (percentileCalc table v).2.2 =
        100 * ((percentileCalc table v).1 : ℚ) / ((percentileCalc table v).2.1 : ℚ)) ∧
    (table.length = 0 → (percentileCalc table v).2.2 = 0) := by
  refine ⟨?_, rfl, ?_, ?_⟩
  · simp only [percentileCalc]
    exact List.countP_eq_length_filter _ table
  · intro h
    simp only [percentileCalc]
    rw [if_pos h]
    ring
  · intro h
    simp only [percentileCalc]
    rw [if_neg (by omega)]

/-- Witness for C1 at the specification's worked example with input 115:
the `total > 0` branch of the formula holds there. -/
theorem C1_percentile_formula_witness :
    (percentileCalc [("B", (110 : ℚ)), ("A", 120)] 115).2.2 =
      100 * ((percentileCalc [("B", (110 : ℚ)), ("A", 120)] 115).1 : ℚ) /
        ((percentileCalc [("B", (110 : ℚ)), ("A", 120)] 115).2.1 : ℚ) :=
  (C1_percentile_formula [("B", 110), ("A", 120)] 115).2.2.1 (by decide)

/-- C4: the event mapping sends display label "Full Power" to internal code
"SBD"; each of the four human-facing display options ("Full Power",
"Bench Only", "Push-Pull", "Squat & Bench") corresponds to exactly one
entry of the display map (the mapping is total and unambiguous); and the
"All" option bypasses the mapping: no `Event` filter is applied. -/
theorem C4_event_mapping :
    eventCodeOfLabel "Full Power" = some "SBD" ∧
    eventCodeOfLabel "Bench Only" = some "B" ∧
    eventCodeOfLabel "Push-Pull" = some "BD" ∧
    eventCodeOfLabel "Squat & Bench" = some "SB" ∧
    EVENT_DISPLAY_MAP.countP (fun p => p.2 == "Full Power") = 1 ∧
    EVENT_DISPLAY_MAP.countP (fun p => p.2 == "Bench Only") = 1 ∧
    EVENT_DISPLAY_MAP.countP (fun p => p.2 == "Push-Pull") = 1 ∧
    EVENT_DISPLAY_MAP.countP (fun p => p.2 == "Squat & Bench") = 1 ∧
    ∀ cur : List CleanRow, applyStrFilter cur "All" CleanRow.Event = cur := by
  refine ⟨by decide, by decide, by decide, by decide, by decide, by decide,
    by decide, by decide, ?_⟩
  intro cur
  simp [applyStrFilter]

/-- C5: whenever the filtered set is empty, `preprocess` returns the empty
result at once (the empty-slice branch, not an aggregated table). -/
theorem C5_empty_short_circuit (df : List CleanRow)
    (sex event equipment weight_class : String) (year : YearSel)
    (country tested_status : String)
    (h : filterRows df sex event equipment weight_class year country tested_status = []) :
    preprocess df sex event equipment weight_class year country tested_status =
      .emptySlice [] := by
  rw [preprocess_eq_emptySlice h, h]

/-- Witness for C5: no example row has `Sex = "F"`, so the filtered set is
empty and `preprocess` returns the empty slice. -/
theorem C5_empty_short_circuit_witness :
    preprocess exampleRows "F" "All" "All" "All" YearSel.all "All" "All" =
      .emptySlice [] :=
  C5_empty_short_circuit exampleRows "F" "All" "All" "All" YearSel.all "All" "All"
    (by decide)

/-- C6: for a fixed dataset and `Sex`, the names returned by `preprocess`
with every other criterion `"All"` form a superset of the names returned
for any stricter criteria with the same `Sex`. -/
theorem C6_all_superset (df : List CleanRow)
    (sex event equipment weight_class : String) (year : YearSel)
    (country tested_status : String) :
    namesOf (preprocess df sex event equipment weight_class year country tested_status) ⊆
      namesOf (preprocess df sex "All" "All" "All" YearSel.all "All" "All") := by
  intro n hn
  rw [namesOf_preprocess] at hn ⊢
  obtain ⟨r, hr, hname⟩ := List.mem_map.mp hn
  refine List.mem_map.mpr ⟨r, ?_, hname⟩
  rw [filterRows_all_sentinels]
  exact filterRows_subset df sex event equipment weight_class year country tested_status hr

/-- Witness for C6: lifter "B" survives a strict `Equipment`, `Year` and
`Country` query on the example rows, so the superset theorem places "B" in
the all-"All" result as well. -/
theorem C6_all_superset_witness :
    "B" ∈ namesOf (preprocess exampleRows "M" "All" "All" "All" YearSel.all "All" "All") :=
  C6_all_superset exampleRows "M" "All" "Raw" "All" (YearSel.year 2019) "USA" "Yes"
    (by decide)

/-- C9: when the filter matches zero rows, `preprocess` returns the empty
filtered slice, which carries all ten input columns; a non-empty result
carries only the two aggregated columns, so the two cases have different
shapes. -/
theorem C9_result_shape (df : List CleanRow)
    (sex event equipment weight_class : String) (year : YearSel)
    (country tested_status : String) :
    (filterRows df sex event equipment weight_class year country tested_status = [] →
      preprocess df sex event equipment weight_class year country tested_status =
          .emptySlice [] ∧
        resultCols (preprocess df sex event equipment weight_class year country tested_status) =
          cleanCols) ∧
    (filterRows df sex event equipment weight_class year country tested_status ≠ [] →
      ∃ t2, preprocess df sex event equipment weight_class year country tested_status =
          .perLifter t2 ∧
        resultCols (preprocess df sex event equipment weight_class year country tested_status) =
          aggCols) ∧
    cleanCols ≠ aggCols := by
  refine ⟨?_, ?_, by decide⟩
  · intro h
    rw [preprocess_eq_emptySlice h, h]
    exact ⟨rfl, rfl⟩
  · intro h
    rw [preprocess_eq_perLifter h]
    exact ⟨_, rfl, rfl⟩

/-- Witness for C9: on the example rows, the `Sex = "F"` query returns the
ten-column empty slice and the `Sex = "M"` query the two-column table. -/
theorem C9_result_shape_witness :
    resultCols (preprocess exampleRows "F" "All" "All" "All" YearSel.all "All" "All") =
        cleanCols ∧
    resultCols (preprocess exampleRows "M" "All" "All" "All" YearSel.all "All" "All") =
        aggCols := by
  constructor
  · exact ((C9_result_shape exampleRows "F" "All" "All" "All" YearSel.all "All" "All").1
      (by decide)).2
  · obtain ⟨t2, _, h2⟩ :=
      (C9_result_shape exampleRows "M" "All" "All" "All" YearSel.all "All" "All").2.1
        (by decide)
    exact h2

/-- C10: `preprocess` never mutates its input dataset: acting on a store of
live dataframes, it only appends fresh frames (the `df.copy()` and the
filtered slice), leaving every existing frame — in particular the cached
cleaned dataset — unchanged, and its result is the pure `preprocess` of
the frame it read. -/
theorem C10_no_mutation (s : Store) (i : ℕ)
    (sex event equipment weight_class : String) (year : YearSel)
    (country tested_status : String) :
    s.frames.IsPrefix
        ((preprocessSt s i sex event equipment weight_class year country tested_status).1.frames) ∧
    (preprocessSt s i sex event equipment weight_class year country tested_status).2 =
      preprocess (s.frames.getD i []) sex event equipment weight_class year
        country tested_status :=
  ⟨⟨_, rfl⟩, rfl⟩

/-- C3: every row of the cleaned dataset comes from a raw row whose
`Best3BenchKg` coerces to a numeric value, whose `Date` yields a derived
integer `Year`, and whose `Country` and `WeightClassKg` are present; a raw
row missing any of these (non-numeric `Best3BenchKg` such as `"DQ"`, an
unparsable `Date`, a missing `Country` or `WeightClassKg`) is excluded
from the cleaned dataset. -/
theorem C3_clean_invariants (rows : List RawRow) :
    (∀ c ∈ clean rows, ∃ r ∈ rows,
        r.Best3BenchKg.bind toNumeric = some c.Best3BenchKg ∧
        r.Date.bind dateYear = some c.Year ∧
        r.Country = some c.Country ∧
        r.WeightClassKg = some c.WeightClassKg) ∧
    (∀ r ∈ rows,
        (r.Best3BenchKg.bind toNumeric = none ∨ r.Date.bind dateYear = none ∨
          r.Country = none ∨ r.WeightClassKg = none) →
        cleanRow r = none) := by
  constructor
  · intro c hc
    obtain ⟨r, hr, hcr⟩ := List.mem_filterMap.mp hc
    exact ⟨r, hr, cleanRow_eq_some hcr⟩
  · intro r _ hmiss
    unfold cleanRow
    split
    · rename_i best date year country wc ev tested hb hd hy hc hw he ht
      rcases hmiss with h | h | h | h <;> simp_all
    · rfl

/-- Witness for C3: the raw row whose `Best3BenchKg` is the non-numeric
string `"DQ"` is excluded from the cleaned dataset. -/
theorem C3_clean_invariants_witness : cleanRow rawDQ = none :=
  (C3_clean_invariants [rawDQ]).2 rawDQ (by simp) (Or.inl (by decide))

/-- C7: for a fixed per-lifter table the percentile is monotonically
non-decreasing in the input value; moreover `rank ≤ total` always, and the
computed percentile lies between 0 and 100 with no extra clamping. -/
theorem C7_percentile_monotone (table : List (String × ℚ)) (v1 v2 : ℚ)
    (h : v1 ≤ v2) :
    (percentileCalc table v1).2.2 ≤ (percentileCalc table v2).2.2 ∧
    (percentileCalc table v1).1 ≤ (percentileCalc table v1).2.1 ∧
    0 ≤ (percentileCalc table v1).2.2 ∧
    (percentileCalc table v1).2.2 ≤ 100 := by
  have hrank : table.countP (fun p => decide (p.2 ≤ v1)) ≤
      table.countP (fun p => decide (p.2 ≤ v2)) :=
    List.countP_mono_left (fun a _ ha => by
      simp only [decide_eq_true_eq] at ha ⊢
      exact le_trans ha h)
  have hle : table.countP (fun p => decide (p.2 ≤ v1)) ≤ table.length :=
    List.countP_le_length _
  simp only [percentileCalc]
  refine ⟨?_, hle, ?_, ?_⟩
  · split_ifs with hL
    · have hL' : (0 : ℚ) < (table.length : ℚ) := by exact_mod_cast hL
      exact mul_le_mul_of_nonneg_right
        ((div_le_div_iff_of_pos_right hL').mpr (Nat.cast_le.mpr hrank)) (by norm_num)
    · exact le_refl 0
  · split_ifs with hL
    · have hL' : (0 : ℚ) ≤ (table.length : ℚ) := Nat.cast_nonneg _
      exact mul_nonneg (div_nonneg (Nat.cast_nonneg _) hL') (by norm_num)
    · exact le_refl 0
  · split_ifs with hL
    · have hL' : (0 : ℚ) < (table.length : ℚ) := by exact_mod_cast hL
      calc ((table.countP (fun p => decide (p.2 ≤ v1)) : ℚ) / (table.length : ℚ)) * 100
          ≤ 1 * 100 := by
            exact mul_le_mul_of_nonneg_right
              ((div_le_one hL').mpr (Nat.cast_le.mpr hle)) (by norm_num)
        _ = 100 := one_mul 100
    · norm_num

/-- Witness for C7 at the worked-example table with inputs 100 and 115. -/
theorem C7_percentile_monotone_witness :
    (100 : ℚ) ≤ 115 ∧
    ((percentileCalc [("B", (110 : ℚ)), ("A", 120)] 100).2.2 ≤
        (percentileCalc [("B", (110 : ℚ)), ("A", 120)] 115).2.2 ∧
      (percentileCalc [("B", (110 : ℚ)), ("A", 120)] 100).1 ≤
        (percentileCalc [("B", (110 : ℚ)), ("A", 120)] 100).2.1 ∧
      0 ≤ (percentileCalc [("B", (110 : ℚ)), ("A", 120)] 100).2.2 ∧
      (percentileCalc [("B", (110 : ℚ)), ("A", 120)] 100).2.2 ≤ 100) :=
  ⟨by decide, C7_percentile_monotone [("B", 110), ("A", 120)] 100 115 (by decide)⟩

/-- C2: when the filtered set is non-empty, `preprocess` returns a table
with exactly one row per distinct surviving `Name`, each carrying the
maximum `Best3BenchKg` over that lifter's surviving rows, sorted ascending
by value with unique `Name` keys. -/
theorem C2_group_max_sorted (df : List CleanRow)
    (sex event equipment weight_class : String) (year : YearSel)
    (country tested_status : String)
    (h : filterRows df sex event equipment weight_class year country tested_status ≠ []) :
    ∃ tbl, preprocess df sex event equipment weight_class year country tested_status =
        .perLifter tbl ∧
      (∀ n, n ∈ tbl.map Prod.fst ↔
        n ∈ (filterRows df sex event equipment weight_class year country
              tested_status).map CleanRow.Name) ∧
      (tbl.map Prod.fst).Nodup ∧
      (∀ p ∈ tbl,
        p.2 ∈ ((filterRows df sex event equipment weight_class year country
                tested_status).filter (fun r => r.Name == p.1)).map CleanRow.Best3BenchKg ∧
        ∀ r ∈ filterRows df sex event equipment weight_class year country tested_status,
          r.Name = p.1 → r.Best3BenchKg ≤ p.2) ∧
      tbl.Pairwise (fun a b => a.2 ≤ b.2) := by
  refine ⟨sortByValue (groupMaxByName
      (filterRows df sex event equipment weight_class year country tested_status)),
    preprocess_eq_perLifter h, ?_, ?_, ?_, ?_⟩
  · intro n
    rw [((sortByValue_perm _).map Prod.fst).mem_iff, groupMaxByName_map_fst]
    exact mem_groupNames
  · rw [((sortByValue_perm _).map Prod.fst).nodup_iff, groupMaxByName_map_fst]
    exact groupNames_nodup _
  · intro p hp
    obtain ⟨hn, hval⟩ := mem_groupMaxByName.mp ((sortByValue_perm _).mem_iff.mp hp)
    have hnm := mem_groupNames.mp hn
    constructor
    · rw [hval]
      exact bestOf_mem hnm
    · intro r hr hname
      rw [hval]
      exact le_bestOf hr hname
  · exact (sortByValue_sorted _).imp (fun hab => hab)

/-- Witness for C2 at the specification's worked example: the three rows
(A, 100), (A, 120), (B, 110) survive the all-"All" male query and yield
the aggregated sorted table. -/
theorem C2_group_max_sorted_witness :
    filterRows exampleRows "M" "All" "All" "All" YearSel.all "All" "All" ≠ [] ∧
    ∃ tbl, preprocess exampleRows "M" "All" "All" "All" YearSel.all "All" "All" =
        .perLifter tbl ∧
      (∀ n, n ∈ tbl.map Prod.fst ↔
        n ∈ (filterRows exampleRows "M" "All" "All" "All" YearSel.all "All"
              "All").map CleanRow.Name) ∧
      (tbl.map Prod.fst).Nodup ∧
      (∀ p ∈ tbl,
        p.2 ∈ ((filterRows exampleRows "M" "All" "All" "All" YearSel.all "All"
                "All").filter (fun r => r.Name == p.1)).map CleanRow.Best3BenchKg ∧
        ∀ r ∈ filterRows exampleRows "M" "All" "All" "All" YearSel.all "All" "All",
          r.Name = p.1 → r.Best3BenchKg ≤ p.2) ∧
      tbl.Pairwise (fun a b => a.2 ≤ b.2) :=
  ⟨by decide,
    C2_group_max_sorted exampleRows "M" "All" "All" "All" YearSel.all "All" "All"
      (by decide)⟩

/-- C8: every fetch/load failure mode — a network failure, a disk write
failure, a downloaded archive that is not a valid zip, an archive with no
`.csv` entry, or a malformed `.csv` entry — makes `load_data` return an
error (the uncaught exception), and `load_data` returns a dataset only
when every step succeeded. -/
theorem C8_load_failures (env : FetchEnv) :
    (env.response = none → load_data env = .error .network) ∧
    (env.diskOk = false → ∀ a, env.response = some a →
      load_data env = .error .diskWrite) ∧
    (env.response = some none → env.diskOk = true →
      load_data env = .error .badZip) ∧
    (∀ entries, env.response = some (some entries) → env.diskOk = true →
      entries.filter (fun e => e.1.endsWith ".csv") = [] →
      load_data env = .error .noCsv) ∧
    (∀ ds, load_data env = .ok ds →
      ∃ entries name rows rest,
        env.response = some (some entries) ∧ env.diskOk = true ∧
        entries.filter (fun e => e.1.endsWith ".csv") = (name, some rows) :: rest ∧
        (name, some rows) ∈ entries ∧ name.endsWith ".csv" = true ∧
        ds = clean rows) := by
  obtain ⟨resp, disk⟩ := env
  refine ⟨?_, ?_, ?_, ?_, ?_⟩
  · intro h
    subst h
    rfl
  · intro hdisk a hresp
    subst hdisk
    subst hresp
    rfl
  · intro hresp hdisk
    subst hresp
    subst hdisk
    rfl
  · intro entries hresp hdisk hfilt
    subst hresp
    subst hdisk
    simp [load_data, hfilt]
  · intro ds hds
    cases resp with
    | none => simp [load_data] at hds
    | some archive =>
        cases disk with
        | false => simp [load_data] at hds
        | true =>
            cases archive with
            | none => simp [load_data] at hds
            | some entries =>
                rcases hfe : entries.filter (fun e => e.1.endsWith ".csv") with
                  _ | ⟨⟨name, csvo⟩, rest⟩
                · simp [load_data, hfe] at hds
                · cases csvo with
                  | none => simp [load_data, hfe] at hds
                  | some rows =>
                      simp only [load_data, hfe] at hds
                      have hmem : (name, some rows) ∈
                          entries.filter (fun e => e.1.endsWith ".csv") := by
                        rw [hfe]
                        exact List.mem_cons_self _ _
                      obtain ⟨hin, hends⟩ := List.mem_filter.mp hmem
                      injection hds with hds
                      exact ⟨entries, name, rows, rest, rfl, rfl, hfe, hin, hends,
                        hds.symm⟩

/-- Witness for C8: a network failure surfaces as the network error. -/
theorem C8_load_failures_witness :
    load_data ⟨none, true⟩ = .error .network :=
  (C8_load_failures ⟨none, true⟩).1 rfl

end BenchPercentile
